import Mathlib

/-!
Verification of the compound configuration option
(include/wayfire/config/compound-option.hpp).

A compound option stores an ordered grid of raw text cells: each row is an
identifier cell followed by one cell per schema column.  Typed accessors
re-parse or serialize the cells column by column, driven by a compile-time
type list; untyped accessors exchange the raw grid with the config-file
layer, validating cells against the per-column descriptors.

The header is the authoritative source for the typed accessors, the tuple
helpers `pop_first` / `push_first`, and the descriptor's `is_parsable`.
The out-of-header method bodies (`set_value_untyped`, `get_value_untyped`,
`reset_to_default`) and the per-type text parsers of `types.hpp` are not
part of the source tree; these are modelled from the specification and are
marked as such in their doc comments.
-/

namespace wf

namespace config

/-- Modelled from the spec: one semantic scalar type together with its text
parser and serializer (`option_type::from_string` / `option_type::to_string`
of `types.hpp`, which is outside the given sources).  Per the spec, the
typed setter serializes each field "using the same textual representation
that the Column Descriptor's type would parse", so serialization followed by
parsing yields the original value. -/
structure OptionType : Type 1 where
  T : Type
  from_string : String → Option T
  to_string : T → String
  round_trip : ∀ x : T, from_string (to_string x) = some x

/-- The instantiation of the type machinery at `std::string`: parsing never
fails and returns the text unchanged, serialization is the identity.  Used
for the identifier component (position 0 of `std::tuple<std::string,
Args...>`). -/
def stringOT : OptionType where
  T := String
  from_string := fun s => some s
  to_string := fun s => s
  round_trip := fun _ => rfl

/-- A sample scalar type used to instantiate the schema in concrete
examples: booleans with the textual representations "true" / "false". -/
def boolOT : OptionType where
  T := Bool
  from_string := fun s =>
    if s = "true" then some true else if s = "false" then some false else none
  to_string := fun b => cond b "true" "false"
  round_trip := fun x => by cases x <;> rfl

/-- `pop_first`: drops the first component of a tuple.  A C++ tuple
`(T1, Ts...)` is modelled as the product of `T1` and the tuple of the
remaining components, so dropping the head is the second projection. -/
def pop_first {T1 : Type} {R : Type} (t : T1 × R) : R := t.2

/-- `push_first`: prepends a component to a tuple. -/
def push_first {T1 : Type} {R : Type} (t : T1) (ts : R) : T1 × R := (t, ts)

/-- The heterogeneous tuple whose component types are drawn from a list of
option types: models `std::tuple<Args...>` for a template argument pack. -/
def HTuple : List OptionType → Type
  | [] => PUnit
  | τ :: τs => τ.T × HTuple τs

/-- `compound_option_entry_t<Type>`: one column descriptor of the schema.
The C++ class carries the column's key prefix and field name and binds the
column's semantic type as a template parameter; the type is modelled as an
`OptionType` field. -/
structure compound_option_entry_t : Type 1 where
  pfx : String
  name : String
  τ : OptionType

/-- `compound_option_entry_t::is_parsable`: whether the raw text parses as
the column's semantic type (`from_string<Type>(str).has_value()`). -/
def compound_option_entry_t.is_parsable (e : compound_option_entry_t)
    (str : String) : Bool :=
  (e.τ.from_string str).isSome

/-- `compound_option_t`: the compound option.  `value` is the stored grid
(each row: identifier cell followed by one raw cell per column), `entries`
the schema, `list_type_hint` the presentation hint, `default_value` the
separately tracked default grid.  `notify_count` counts the change
notifications delivered through `option_base_t::notify_updated`, whose
transport is external to this component. -/
structure compound_option_t : Type 1 where
  name : String
  entries : List compound_option_entry_t
  list_type_hint : String
  value : List (List String)
  default_value : List (List String)
  notify_count : Nat

/-- The constructor `compound_option_t(name, entries, type_hint)`: the value
grid starts empty; modelled from the spec: "`value` starts empty at
construction". -/
def mk_compound_option (name : String)
    (entries : List compound_option_entry_t)
    (type_hint : String) : compound_option_t :=
  ⟨name, entries, type_hint, [], [], 0⟩

/-- Validation of a single row, as performed by `set_value_untyped`: the row
must consist of the identifier cell (accepted unconditionally) followed by
exactly one cell per schema column, each cell parsable by its column's
descriptor. -/
def row_valid (entries : List compound_option_entry_t)
    (row : List String) : Bool :=
  match row with
  | [] => false
  | _id :: cells =>
    cells.length == entries.length &&
    (entries.zip cells).all fun p => p.1.is_parsable p.2

/-- Modelled from the spec: `compound_option_t::set_value_untyped`, whose
body is outside the given sources.  Per the spec it "validates every cell in
every row against the corresponding Column Descriptor (cell at column index
`c` of row `r` must satisfy `entries[c-1].validate(cell)`, the identifier
cell at index 0 is accepted unconditionally)", requires each row to carry
exactly `N + 1` cells (§3 invariant, and `get_value_untyped` promises rows
of length `N + 1`), and only if all rows validate replaces `value` wholesale
and fires the change notification; otherwise it is a no-op reporting
failure. -/
def set_value_untyped (o : compound_option_t) (v : List (List String)) :
    Bool × compound_option_t :=
  if v.all (row_valid o.entries) then
    (true, { o with value := v, notify_count := o.notify_count + 1 })
  else
    (false, o)

/-- Modelled from the spec: `compound_option_t::get_value_untyped`, whose
body is outside the given sources; it "returns the full current row grid,
row order preserved". -/
def get_value_untyped (o : compound_option_t) : List (List String) :=
  o.value

/-- Modelled from the spec: `compound_option_t::reset_to_default`, whose
body is outside the given sources; default handling "mirrors the plain value
accessors but operates on a separately tracked default", and default-reset
is listed among the mutations that trigger a single change notification. -/
def reset_to_default (o : compound_option_t) : compound_option_t :=
  { o with value := o.default_value, notify_count := o.notify_count + 1 }

/-- Modelled from the spec: the default-value setter mirrors
`set_value_untyped` but operates on the separately tracked default grid. -/
def set_default_untyped (o : compound_option_t) (v : List (List String)) :
    Bool × compound_option_t :=
  if v.all (row_valid o.entries) then
    (true, { o with default_value := v })
  else
    (false, o)

/-- `build_recursive<n, Args...>` reads, for each row `i` and each tuple
position `n`, the cell `value[i][n]`, parses it as the `n`-th type of
`std::tuple<std::string, Args...>`, and stores the result in position `n`
of the `i`-th result tuple; `.value()` on a failed parse throws, and
reading past the end of a row is out of bounds.  Restructured row-major
(the C++ iterates column-major over the same cells, with the same parses
and the same overall success condition): `build_tuple` assembles one result
tuple from the leading cells of one row, `none` modelling the fatal
outcomes. -/
def build_tuple : (σs : List OptionType) → List String → Option (HTuple σs)
  | [], _ => some PUnit.unit
  | _ :: _, [] => none
  | σ :: σs, c :: cs =>
    match σ.from_string c, build_tuple σs cs with
    | some x, some xs => some (x, xs)
    | _, _ => none

/-- The row-by-row assembly of the full result list of
`get_value`: one tuple per stored row, in row order; any fatal outcome on
any row is fatal for the whole call. -/
def build_all (σs : List OptionType) :
    List (List String) → Option (List (HTuple σs))
  | [] => some []
  | r :: rs =>
    match build_tuple σs r, build_all σs rs with
    | some t, some ts => some (t :: ts)
    | _, _ => none

/-- `compound_option_t::get_value<Args...>`: sizes the result to the number
of stored rows and fills it with `build_recursive<0, Args...>`.  Note the
C++ performs no arity check here: the tuple positions traversed are those
of `std::tuple<std::string, Args...>`, regardless of `entries.size()`. -/
def get_value (o : compound_option_t) (τs : List OptionType) :
    Option (List (HTuple (stringOT :: τs))) :=
  build_all (stringOT :: τs) o.value

/-- `push_recursive<n, Args...>` serializes tuple position `n` of every row
with `to_string` and appends it to the row under construction; row-major
restatement: the serialized row of one tuple, identifier first. -/
def push_tuple : (σs : List OptionType) → HTuple σs → List String
  | [], _ => []
  | σ :: σs, t => σ.to_string t.1 :: push_tuple σs t.2

/-- `compound_option_t::set_value<Args...>`: asserts that the number of
template arguments equals the schema arity (`none` models the failed
assertion), then rebuilds the stored grid from the given tuples via
`push_recursive` and fires the change notification. -/
def set_value (o : compound_option_t) (τs : List OptionType)
    (v : List (HTuple (stringOT :: τs))) : Option compound_option_t :=
  if τs.length = o.entries.length then
    some { o with value := v.map (push_tuple (stringOT :: τs)),
                  notify_count := o.notify_count + 1 }
  else
    none

/-- `compound_option_t::get_value_simple<Args...>`: calls `get_value` and
drops the identifier component of every tuple with `pop_first`. -/
def get_value_simple (o : compound_option_t) (τs : List OptionType) :
    Option (List (HTuple τs)) :=
  (get_value o τs).map (List.map pop_first)

/-- `compound_option_t::set_value_simple<Args...>`: prepends to the `i`-th
tuple the identifier `std::to_string(i)` (the zero-based index rendered in
decimal) and delegates to `set_value`. -/
def set_value_simple (o : compound_option_t) (τs : List OptionType)
    (v : List (HTuple τs)) : Option compound_option_t :=
  set_value o τs
    (v.enum.map fun p => push_first (toString p.1) p.2)

/-- The component of a heterogeneous tuple at position `k`. -/
def HTuple.nth : {σs : List OptionType} → HTuple σs → (k : Fin σs.length) →
    (σs.get k).T
  | _ :: _, t, ⟨0, _⟩ => t.1
  | _ :: σs, t, ⟨k + 1, h⟩ =>
    HTuple.nth (t.2 : HTuple σs) ⟨k, Nat.lt_of_succ_lt_succ h⟩

/-! ### Helper lemmas -/

lemma getD_of_getElem? {α : Type} {l : List α} {n : Nat} {x : α} (d : α)
    (h : l[n]? = some x) : l.getD n d = x := by
  induction l generalizing n with
  | nil => simp at h
  | cons a as ih =>
    cases n with
    | zero =>
      simp at h
      simp [h]
    | succ n =>
      simp at h
      simpa using ih h

lemma all_zip_false {α β : Type _} (f : α → β → Bool) :
    ∀ (xs : List α) (ys : List β) (k : Nat) (x : α) (y : β),
      xs[k]? = some x → ys[k]? = some y → f x y = false →
      ((xs.zip ys).all fun p => f p.1 p.2) = false := by
  intro xs
  induction xs with
  | nil => intro ys k x y hx; simp at hx
  | cons a as ih =>
    intro ys k x y hx hy hf
    cases ys with
    | nil => simp at hy
    | cons b bs =>
      cases k with
      | zero =>
        simp at hx hy
        subst hx
        subst hy
        simp [hf]
      | succ k =>
        simp at hx hy
        have := ih bs k x y hx hy hf
        simp [this]

lemma all_zip_true {α β : Type _} (f : α → β → Bool) :
    ∀ (xs : List α) (ys : List β),
      (∀ (k : Nat) (x : α) (y : β),
        xs[k]? = some x → ys[k]? = some y → f x y = true) →
      ((xs.zip ys).all fun p => f p.1 p.2) = true := by
  intro xs
  induction xs with
  | nil => intro ys _; simp
  | cons a as ih =>
    intro ys h
    cases ys with
    | nil => simp
    | cons b bs =>
      simp only [List.zip_cons_cons, List.all_cons, Bool.and_eq_true]
      constructor
      · exact h 0 a b (by simp) (by simp)
      · exact ih bs fun k x y hx hy =>
          h (k + 1) x y (by simpa using hx) (by simpa using hy)

lemma row_valid_length {entries : List compound_option_entry_t}
    {row : List String} (h : row_valid entries row = true) :
    row.length = entries.length + 1 := by
  cases row with
  | nil => simp [row_valid] at h
  | cons a cells =>
    unfold row_valid at h
    rw [Bool.and_eq_true] at h
    obtain ⟨h1, -⟩ := h
    rw [Nat.beq_eq_true_eq] at h1
    simp [h1]

lemma build_push : ∀ (σs : List OptionType) (t : HTuple σs),
    build_tuple σs (push_tuple σs t) = some t
  | [], _ => rfl
  | σ :: σs, t => by
    simp [push_tuple, build_tuple, σ.round_trip t.1, build_push σs t.2]

lemma build_all_push : ∀ (σs : List OptionType) (v : List (HTuple σs)),
    build_all σs (v.map (push_tuple σs)) = some v
  | _, [] => rfl
  | σs, t :: ts => by
    simp [build_all, build_push σs t, build_all_push σs ts]

lemma push_tuple_length : ∀ (σs : List OptionType) (t : HTuple σs),
    (push_tuple σs t).length = σs.length
  | [], _ => rfl
  | σ :: σs, t => by simp [push_tuple, push_tuple_length σs t.2]

lemma build_tuple_nth : ∀ (σs : List OptionType) (row : List String)
    (t : HTuple σs), build_tuple σs row = some t →
    ∀ (k : Fin σs.length),
      some (t.nth k) = (σs.get k).from_string (row.getD k.1 "")
  | [], _, _, _, k => absurd k.2 (by simp)
  | _ :: _, [], _, h, _ => by simp [build_tuple] at h
  | σ :: σs, c :: cs, t, h, k => by
    cases hx : σ.from_string c with
    | none => simp [build_tuple, hx] at h
    | some x =>
      cases hrest : build_tuple σs cs with
      | none => simp [build_tuple, hx, hrest] at h
      | some xs =>
        simp [build_tuple, hx, hrest] at h
        match k with
        | ⟨0, _⟩ =>
          simp [HTuple.nth, ← h, hx]
        | ⟨k + 1, hk⟩ =>
          have := build_tuple_nth σs cs xs hrest ⟨k, Nat.lt_of_succ_lt_succ hk⟩
          simpa [HTuple.nth, ← h] using this

lemma build_all_getElem? : ∀ (σs : List OptionType)
    (rows : List (List String)) (l : List (HTuple σs)),
    build_all σs rows = some l →
    l.length = rows.length ∧
    ∀ (i : Nat) (r : List String) (t : HTuple σs),
      rows[i]? = some r → l[i]? = some t → build_tuple σs r = some t
  | _, [], l, h => by
    simp [build_all] at h
    subst h
    exact ⟨rfl, by intro i r t hr; simp at hr⟩
  | σs, r :: rs, l, h => by
    cases hbt : build_tuple σs r with
    | none => simp [build_all, hbt] at h
    | some t0 =>
      cases hba : build_all σs rs with
      | none => simp [build_all, hbt, hba] at h
      | some ts =>
        simp [build_all, hbt, hba] at h
        subst h
        have ih := build_all_getElem? σs rs ts hba
        refine ⟨by simp [ih.1], ?_⟩
        intro i r' t hr ht
        cases i with
        | zero =>
          simp at hr ht
          rw [← hr, ← ht]
          exact hbt
        | succ i =>
          simp at hr ht
          exact ih.2 i r' t hr ht

lemma build_tuple_isSome : ∀ (σs : List OptionType) (row : List String),
    σs.length ≤ row.length →
    (∀ k : Fin σs.length,
      ((σs.get k).from_string (row.getD k.1 "")).isSome = true) →
    ∃ t : HTuple σs, build_tuple σs row = some t
  | [], _, _, _ => ⟨PUnit.unit, rfl⟩
  | σ :: σs, [], hl, _ => by simp at hl
  | σ :: σs, c :: cs, hl, hp => by
    have h0 := hp ⟨0, by simp⟩
    simp only [List.get, List.getD_cons_zero] at h0
    rw [Option.isSome_iff_exists] at h0
    obtain ⟨x, hx⟩ := h0
    have htail : ∃ t : HTuple σs, build_tuple σs cs = some t := by
      refine build_tuple_isSome σs cs ?_ ?_
      · simp only [List.length_cons] at hl
        exact Nat.le_of_succ_le_succ hl
      intro k
      have := hp ⟨k.1 + 1, by simp [Nat.succ_lt_succ k.2]⟩
      simpa using this
    obtain ⟨ts, hts⟩ := htail
    exact ⟨(x, ts), by simp [build_tuple, hx, hts]⟩

lemma build_all_isSome : ∀ (σs : List OptionType)
    (rows : List (List String)),
    (∀ r ∈ rows, ∃ t : HTuple σs, build_tuple σs r = some t) →
    ∃ l : List (HTuple σs), build_all σs rows = some l
  | _, [], _ => ⟨[], rfl⟩
  | σs, r :: rs, h => by
    obtain ⟨t, ht⟩ := h r (by simp)
    obtain ⟨l, hl⟩ := build_all_isSome σs rs fun r' hr' => h r' (by simp [hr'])
    exact ⟨t :: l, by simp [build_all, ht, hl]⟩

/-! ### Concrete schema fixtures -/

/-- A column descriptor for a free-text (string) column. -/
def strEntry (p : String) : compound_option_entry_t := ⟨p, "", stringOT⟩

/-- A column descriptor for a boolean column. -/
def boolEntry (p : String) : compound_option_entry_t := ⟨p, "", boolOT⟩

/-- A freshly constructed option with one boolean column. -/
def boolSchemaOpt : compound_option_t :=
  mk_compound_option "opt" [boolEntry "flag_"] "tuple"

/-- An option with two string columns holding one already-validated row. -/
def twoColOpt : compound_option_t :=
  ⟨"opt", [strEntry "a_", strEntry "b_"], "tuple", [["id", "x", "y"]], [], 0⟩

/-! ### Claim theorems -/

/-- Claim C2: for every list of typed tuples and every type list whose
length equals the schema arity, `set_value` followed by `get_value` (with
the same type list) returns the original list: the serialized grid parses
back to the same tuples, component-wise, in the same order. -/
theorem set_value_get_value_round_trip (o : compound_option_t)
    (τs : List OptionType) (v : List (HTuple (stringOT :: τs)))
    (o' : compound_option_t) (hN : τs.length = o.entries.length)
    (h : set_value o τs v = some o') :
    get_value o' τs = some v := by
  unfold set_value at h
  rw [if_pos hN] at h
  have h' := Option.some.inj h
  subst h'
  unfold get_value
  exact build_all_push _ v

/-- Witness for Claim C2's theorem: a one-column boolean schema, the tuple
list `[("r", true)]`, recovered exactly after setting. -/
theorem set_value_get_value_round_trip_witness :
    get_value ⟨"opt", [boolEntry "flag_"], "tuple", [["r", "true"]], [], 1⟩
      [boolOT] = some [("r", (true, PUnit.unit))] :=
  set_value_get_value_round_trip boolSchemaOpt [boolOT]
    [("r", (true, PUnit.unit))] _ rfl rfl

/-- Claim C5 (refuting evaluation): the spec calls an arity mismatch in a
typed accessor fatal, and `get_value`'s own comment says it "throws an
exception in case of wrong template types"; yet `get_value` performs no
arity check, and with fewer declared types than schema columns it completes
normally, returning truncated tuples — here one declared string type
against a two-string-column schema.  (`set_value`, by contrast, does assert
the arity.) -/
theorem get_value_arity_mismatch_completes :
    [stringOT].length ≠ twoColOpt.entries.length ∧
    get_value twoColOpt [stringOT] = some [("id", ("x", PUnit.unit))] ∧
    set_value twoColOpt [stringOT] [("id", ("x", PUnit.unit))] = none :=
  ⟨by decide, rfl, rfl⟩

/-- Claim C9: a column descriptor's `is_parsable` returns `true` exactly
when the raw text parses as the column's declared semantic type; it is a
pure predicate (a total Lean function), so it cannot throw or mutate the
descriptor. -/
theorem is_parsable_iff_parses (e : compound_option_entry_t) (raw : String) :
    e.is_parsable raw = true ↔ ∃ x, e.τ.from_string raw = some x := by
  simp [compound_option_entry_t.is_parsable, Option.isSome_iff_exists]

/-- Claim C10: `pop_first` and `push_first` are mutually inverse around the
first tuple component: popping after pushing returns the original tail, and
pushing a tuple's own head onto its popped tail returns the original
tuple. -/
theorem pop_first_push_first_inverse :
    (∀ (T1 R : Type) (t : T1) (ts : R), pop_first (push_first t ts) = ts) ∧
    (∀ (T1 R : Type) (p : T1 × R), push_first p.1 (pop_first p) = p) :=
  ⟨fun _ _ _ _ => rfl, fun _ _ _ => rfl⟩

/-- Claim C1: if the grid passed to `set_value_untyped` contains a cell at
some column index `c ≥ 1` that the corresponding column descriptor rejects,
the call reports failure and the value observed through
`get_value_untyped` is exactly the value from before the call: the update
is never partially applied. -/
theorem set_value_untyped_all_or_nothing (o : compound_option_t)
    (v : List (List String)) (r : List String) (c : Nat) (cell : String)
    (e : compound_option_entry_t)
    (hr : r ∈ v) (hc : 1 ≤ c) (hcell : r[c]? = some cell)
    (he : o.entries[c - 1]? = some e)
    (hbad : e.is_parsable cell = false) :
    (set_value_untyped o v).1 = false ∧
    get_value_untyped (set_value_untyped o v).2 = get_value_untyped o := by
  obtain ⟨k, rfl⟩ : ∃ k, c = k + 1 :=
    ⟨c - 1, (Nat.succ_pred_eq_of_pos hc).symm⟩
  simp only [Nat.add_sub_cancel] at he
  cases r with
  | nil => simp at hcell
  | cons id0 cells =>
    have hcells : cells[k]? = some cell := by simpa using hcell
    have hrow : row_valid o.entries (id0 :: cells) = false := by
      unfold row_valid
      cases hlen : (cells.length == o.entries.length) with
      | false => simp [hlen]
      | true =>
        simp only [hlen, Bool.true_and]
        exact all_zip_false _ o.entries cells k e cell he hcells hbad
    have hall : v.all (row_valid o.entries) = false := by
      cases hv : v.all (row_valid o.entries) with
      | false => rfl
      | true =>
        have := List.all_eq_true.mp hv _ hr
        rw [hrow] at this
        exact absurd this (by simp)
    simp [set_value_untyped, hall, get_value_untyped]

/-- Witness for Claim C1's theorem: a boolean column rejects the cell "x";
the one-row grid is refused and the (empty) prior value survives. -/
theorem set_value_untyped_all_or_nothing_witness :
    (set_value_untyped boolSchemaOpt [["id", "x"]]).1 = false ∧
    get_value_untyped (set_value_untyped boolSchemaOpt [["id", "x"]]).2 =
      get_value_untyped boolSchemaOpt :=
  set_value_untyped_all_or_nothing boolSchemaOpt [["id", "x"]] ["id", "x"]
    1 "x" (boolEntry "flag_") (by simp) (by decide) rfl rfl rfl

/-- Claim C3: a grid whose every row consists of the identifier cell plus
exactly one cell per schema column, each non-identifier cell validated by
its column's descriptor, is accepted by `set_value_untyped`, and
`get_value_untyped` afterwards returns that grid exactly — same rows, same
order, same cell text. -/
theorem set_value_untyped_round_trip (o : compound_option_t)
    (v : List (List String))
    (hlen : ∀ r ∈ v, r.length = o.entries.length + 1)
    (hval : ∀ r ∈ v, ∀ (c : Nat) (hc : c < o.entries.length),
      (o.entries.get ⟨c, hc⟩).is_parsable (r.getD (c + 1) "") = true) :
    (set_value_untyped o v).1 = true ∧
    get_value_untyped (set_value_untyped o v).2 = v := by
  have hall : v.all (row_valid o.entries) = true := by
    rw [List.all_eq_true]
    intro r hr
    cases r with
    | nil =>
      have := hlen _ hr
      simp at this
    | cons id0 cells =>
      have hl : cells.length = o.entries.length := by
        have := hlen _ hr
        simpa using this
      unfold row_valid
      rw [Bool.and_eq_true]
      constructor
      · simp [hl]
      · apply all_zip_true
        intro k x y hx hy
        have hk : k < o.entries.length := by
          have := List.getElem?_eq_some_iff.mp hx
          exact this.1
        have hx' : o.entries.get ⟨k, hk⟩ = x := by
          have := List.getElem?_eq_some_iff.mp hx
          obtain ⟨h1, h2⟩ := this
          simpa [List.get_eq_getElem] using h2
        have hy' : (id0 :: cells).getD (k + 1) "" = y := by
          refine getD_of_getElem? "" ?_
          simpa using hy
        have := hval _ hr k hk
        rw [hx', hy'] at this
        exact this
  simp [set_value_untyped, hall, get_value_untyped]

/-- Witness for Claim C3's theorem: the grid `[["id", "true"]]` is accepted
by the one-boolean-column schema and read back verbatim. -/
theorem set_value_untyped_round_trip_witness :
    (set_value_untyped boolSchemaOpt [["id", "true"]]).1 = true ∧
    get_value_untyped (set_value_untyped boolSchemaOpt [["id", "true"]]).2 =
      [["id", "true"]] :=
  set_value_untyped_round_trip boolSchemaOpt [["id", "true"]]
    (by decide) (by decide)

/-- Claim C4: when every stored cell is parsable as its declared type (with
the declared type list matching the schema arity), `get_value` succeeds and
returns one tuple per stored row, in row order; each tuple's identifier is
the row's cell at index 0 and its `(k+1)`-th component is the parse of the
stored cell at index `k + 1` as the `k`-th declared type. -/
theorem get_value_builds_rows (o : compound_option_t)
    (τs : List OptionType)
    (hN : τs.length = o.entries.length)
    (hlen : ∀ r ∈ o.value, r.length = o.entries.length + 1)
    (hpar : ∀ r ∈ o.value, ∀ k : Fin τs.length,
      ((τs.get k).from_string (r.getD (k.1 + 1) "")).isSome = true) :
    ∃ l, get_value o τs = some l ∧
      l.length = o.value.length ∧
      ∀ (i : Nat) (r : List String) (t : HTuple (stringOT :: τs)),
        o.value[i]? = some r → l[i]? = some t →
        t.1 = r.getD 0 "" ∧
        ∀ k : Fin τs.length,
          some (HTuple.nth t.2 k) =
            (τs.get k).from_string (r.getD (k.1 + 1) "") := by
  have hsome : ∀ r ∈ o.value,
      ∃ t : HTuple (stringOT :: τs), build_tuple (stringOT :: τs) r = some t := by
    intro r hr
    refine build_tuple_isSome _ r ?_ ?_
    · rw [hlen r hr]
      simp [hN]
    · intro k
      match k with
      | ⟨0, _⟩ => simp [stringOT]
      | ⟨j + 1, hj⟩ =>
        have := hpar r hr ⟨j, by simpa using Nat.lt_of_succ_lt_succ hj⟩
        simpa using this
  obtain ⟨l, hl⟩ := build_all_isSome _ o.value hsome
  refine ⟨l, hl, (build_all_getElem? _ o.value l hl).1, ?_⟩
  intro i r t hri hti
  have hbt := (build_all_getElem? _ o.value l hl).2 i r t hri hti
  constructor
  · have h0 := build_tuple_nth _ r t hbt ⟨0, by simp⟩
    simp only [List.get, stringOT] at h0
    exact Option.some.inj h0
  · intro k
    have hk := build_tuple_nth _ r t hbt ⟨k.1 + 1, by simp [Nat.succ_lt_succ k.2]⟩
    simpa [HTuple.nth] using hk

/-- Witness for Claim C4's theorem: the one-boolean-column schema storing
`[["id", "true"]]`; the single result tuple is `("id", true)`. -/
theorem get_value_builds_rows_witness :
    ∃ l, get_value ⟨"opt", [boolEntry "flag_"], "tuple", [["id", "true"]],
        [], 0⟩ [boolOT] = some l ∧
      l.length = 1 ∧
      ∀ (i : Nat) (r : List String) (t : HTuple (stringOT :: [boolOT])),
        [["id", "true"]][i]? = some r → l[i]? = some t →
        t.1 = r.getD 0 "" ∧
        ∀ k : Fin [boolOT].length,
          some (HTuple.nth t.2 k) =
            ([boolOT].get k).from_string (r.getD (k.1 + 1) "") :=
  get_value_builds_rows
    ⟨"opt", [boolEntry "flag_"], "tuple", [["id", "true"]], [], 0⟩
    [boolOT] rfl (by decide) (by decide)

/-- Claim C6: every successful mutation of the stored value — the typed
setters, a successful untyped set, a default-reset — bumps the notification
count by exactly one, and a rejected untyped set leaves it untouched. -/
theorem notify_exactly_once (o : compound_option_t) (τs : List OptionType)
    (v : List (HTuple (stringOT :: τs))) (sv : List (HTuple τs))
    (g : List (List String)) :
    (∀ o', set_value o τs v = some o' →
      o'.notify_count = o.notify_count + 1) ∧
    (∀ o', set_value_simple o τs sv = some o' →
      o'.notify_count = o.notify_count + 1) ∧
    ((set_value_untyped o g).1 = true →
      (set_value_untyped o g).2.notify_count = o.notify_count + 1) ∧
    ((set_value_untyped o g).1 = false →
      (set_value_untyped o g).2.notify_count = o.notify_count) ∧
    (reset_to_default o).notify_count = o.notify_count + 1 := by
  refine ⟨?_, ?_, ?_, ?_, rfl⟩
  · intro o' h
    unfold set_value at h
    by_cases hN : τs.length = o.entries.length
    · rw [if_pos hN] at h
      have h' := Option.some.inj h
      subst h'
      rfl
    · rw [if_neg hN] at h
      exact absurd h (by simp)
  · intro o' h
    unfold set_value_simple set_value at h
    by_cases hN : τs.length = o.entries.length
    · rw [if_pos hN] at h
      have h' := Option.some.inj h
      subst h'
      rfl
    · rw [if_neg hN] at h
      exact absurd h (by simp)
  · intro h1
    unfold set_value_untyped at h1 ⊢
    cases hg : g.all (row_valid o.entries) with
    | true => simp [hg]
    | false => rw [hg] at h1; simp at h1
  · intro h1
    unfold set_value_untyped at h1 ⊢
    cases hg : g.all (row_valid o.entries) with
    | true => rw [hg] at h1; simp at h1
    | false => simp [hg]

/-- Witness for Claim C6's theorem: on the one-boolean-column schema, an
accepted untyped set and both typed setters notify once, a rejected untyped
set does not notify, and a default-reset notifies once. -/
theorem notify_exactly_once_witness :
    (set_value_untyped boolSchemaOpt [["id", "true"]]).2.notify_count =
      boolSchemaOpt.notify_count + 1 ∧
    (set_value_untyped boolSchemaOpt [["id", "x"]]).2.notify_count =
      boolSchemaOpt.notify_count ∧
    (reset_to_default boolSchemaOpt).notify_count =
      boolSchemaOpt.notify_count + 1 ∧
    (∃ o', set_value boolSchemaOpt [boolOT] [("r", (true, PUnit.unit))] =
      some o' ∧ o'.notify_count = boolSchemaOpt.notify_count + 1) ∧
    (∃ o', set_value_simple boolSchemaOpt [boolOT] [(true, PUnit.unit)] =
      some o' ∧ o'.notify_count = boolSchemaOpt.notify_count + 1) := by
  have A := notify_exactly_once boolSchemaOpt [boolOT]
    [("r", (true, PUnit.unit))] [(true, PUnit.unit)] [["id", "true"]]
  have B := notify_exactly_once boolSchemaOpt [boolOT]
    [("r", (true, PUnit.unit))] [(true, PUnit.unit)] [["id", "x"]]
  exact ⟨A.2.2.1 rfl, B.2.2.2.1 rfl, A.2.2.2.2,
    ⟨_, rfl, A.1 _ rfl⟩, ⟨_, rfl, A.2.1 _ rfl⟩⟩

/-- Every row of the grid `g` has exactly `n + 1` cells. -/
def rows_ok (n : Nat) (g : List (List String)) : Prop :=
  ∀ r ∈ g, r.length = n + 1

/-- The §3 data-model invariant: every row of the stored value grid — and
of the separately tracked default grid — has exactly `N + 1` cells, `N`
being the schema arity. -/
def option_inv (o : compound_option_t) : Prop :=
  rows_ok o.entries.length o.value ∧ rows_ok o.entries.length o.default_value

lemma set_value_preserves_inv (o : compound_option_t)
    (τs : List OptionType) (v : List (HTuple (stringOT :: τs)))
    (o' : compound_option_t) (hinv : option_inv o)
    (h : set_value o τs v = some o') : option_inv o' := by
  unfold set_value at h
  by_cases hN : τs.length = o.entries.length
  · rw [if_pos hN] at h
    have h' := Option.some.inj h
    subst h'
    refine ⟨?_, hinv.2⟩
    intro r hr
    rw [List.mem_map] at hr
    obtain ⟨t, -, rfl⟩ := hr
    rw [push_tuple_length]
    simp [hN]
  · rw [if_neg hN] at h
    exact absurd h (by simp)

lemma set_value_untyped_preserves_inv (o : compound_option_t)
    (g : List (List String)) (hinv : option_inv o) :
    option_inv (set_value_untyped o g).2 := by
  unfold set_value_untyped
  cases hg : g.all (row_valid o.entries) with
  | false => simpa using hinv
  | true =>
    refine ⟨?_, hinv.2⟩
    intro r hr
    exact row_valid_length (List.all_eq_true.mp hg r (by simpa using hr))

/-- Claim C7: the every-row-has-`N + 1`-cells invariant holds for a freshly
constructed option and is preserved by `set_value`, `set_value_simple`,
`set_value_untyped`, the default setter, and `reset_to_default`. -/
theorem rows_invariant :
    (∀ name entries hint, option_inv (mk_compound_option name entries hint)) ∧
    (∀ (o : compound_option_t) (τs : List OptionType) v o',
      option_inv o → set_value o τs v = some o' → option_inv o') ∧
    (∀ (o : compound_option_t) (τs : List OptionType) sv o',
      option_inv o → set_value_simple o τs sv = some o' → option_inv o') ∧
    (∀ (o : compound_option_t) g, option_inv o →
      option_inv (set_value_untyped o g).2) ∧
    (∀ (o : compound_option_t) g, option_inv o →
      option_inv (set_default_untyped o g).2) ∧
    (∀ o : compound_option_t, option_inv o →
      option_inv (reset_to_default o)) := by
  refine ⟨?_, ?_, ?_, ?_, ?_, ?_⟩
  · intro name entries hint
    exact ⟨fun r hr => absurd hr (List.not_mem_nil r),
           fun r hr => absurd hr (List.not_mem_nil r)⟩
  · intro o τs v o' hinv h
    exact set_value_preserves_inv o τs v o' hinv h
  · intro o τs sv o' hinv h
    unfold set_value_simple at h
    exact set_value_preserves_inv o τs _ o' hinv h
  · intro o g hinv
    exact set_value_untyped_preserves_inv o g hinv
  · intro o g hinv
    unfold set_default_untyped
    cases hg : g.all (row_valid o.entries) with
    | false => simpa using hinv
    | true =>
      refine ⟨hinv.1, ?_⟩
      intro r hr
      exact row_valid_length (List.all_eq_true.mp hg r (by simpa using hr))
  · intro o hinv
    exact ⟨hinv.2, hinv.2⟩

/-- Witness for Claim C7's theorem: the invariant for the freshly built
one-boolean-column option, and its preservation across a successful untyped
set, a typed set, and a default-reset. -/
theorem rows_invariant_witness :
    option_inv (mk_compound_option "opt" [boolEntry "flag_"] "tuple") ∧
    option_inv (set_value_untyped boolSchemaOpt [["id", "true"]]).2 ∧
    option_inv (reset_to_default boolSchemaOpt) ∧
    ∃ o', set_value boolSchemaOpt [boolOT] [("r", (true, PUnit.unit))] =
      some o' ∧ option_inv o' := by
  have R := rows_invariant
  have h0 : option_inv boolSchemaOpt := R.1 "opt" [boolEntry "flag_"] "tuple"
  exact ⟨R.1 "opt" [boolEntry "flag_"] "tuple",
    R.2.2.2.1 boolSchemaOpt [["id", "true"]] h0,
    R.2.2.2.2.2 boolSchemaOpt h0,
    ⟨_, rfl, R.2.1 boolSchemaOpt [boolOT] [("r", (true, PUnit.unit))] _ h0 rfl⟩⟩

/-- Claim C8: `set_value_simple` behaves as `set_value` on the tuple list
with the zero-based row index (rendered in decimal) prepended as the
identifier — in particular the stored grid rows are exactly
`toString i :: serialized cells` — and `get_value_simple` returns exactly
the `get_value` result with the identifier component dropped from every
tuple, order preserved. -/
theorem simple_variants_spec (o : compound_option_t) (τs : List OptionType)
    (v : List (HTuple τs)) (l : List (HTuple (stringOT :: τs))) :
    set_value_simple o τs v =
      set_value o τs (v.enum.map fun p => push_first (toString p.1) p.2) ∧
    (∀ o', set_value_simple o τs v = some o' →
      o'.value = v.enum.map fun p => toString p.1 :: push_tuple τs p.2) ∧
    (get_value o τs = some l →
      get_value_simple o τs = some (l.map pop_first)) := by
  refine ⟨rfl, ?_, ?_⟩
  · intro o' h
    unfold set_value_simple set_value at h
    by_cases hN : τs.length = o.entries.length
    · rw [if_pos hN] at h
      have h' := Option.some.inj h
      subst h'
      show (v.enum.map fun p => push_first (toString p.1) p.2).map
          (push_tuple (stringOT :: τs)) = _
      rw [List.map_map]
      simp [Function.comp, push_tuple, push_first, stringOT]
    · rw [if_neg hN] at h
      exact absurd h (by simp)
  · intro h
    unfold get_value_simple
    rw [h]
    rfl

/-- Witness for Claim C8's theorem: writing `[(true)]` through the simple
setter stores the grid `[["0", "true"]]`, and the simple getter on a stored
row `["id", "true"]` returns `[(true)]` with the identifier dropped. -/
theorem simple_variants_spec_witness :
    (∃ o', set_value_simple boolSchemaOpt [boolOT] [(true, PUnit.unit)] =
      some o' ∧ o'.value = [["0", "true"]]) ∧
    get_value_simple ⟨"opt", [boolEntry "flag_"], "tuple", [["id", "true"]],
      [], 0⟩ [boolOT] = some [(true, PUnit.unit)] := by
  have A := simple_variants_spec boolSchemaOpt [boolOT] [(true, PUnit.unit)]
    []
  have B := simple_variants_spec
    ⟨"opt", [boolEntry "flag_"], "tuple", [["id", "true"]], [], 0⟩
    [boolOT] [] [("id", (true, PUnit.unit))]
  exact ⟨⟨_, rfl, A.2.1 _ rfl⟩, B.2.2 rfl⟩

end config

end wf
